import Mathlib

/-!
Verification development for the `ctx` shell-activity logger (Rust sources
`src/main.rs`, `src/logger.rs`, `src/db.rs`).  The definitions below are a
shallow embedding of the program: SQL queries are embedded through the
semantics SQLite gives them (`LIKE` matching, aggregate rows), the capture
gate in `logger.rs` is a pure function of the ambient state it reads, and
machine floats (`f64` durations and epoch seconds) are modelled as exact
rationals.
-/

namespace Ctx

/-! ## SQLite `LIKE` semantics

`main.rs` filters rows with `command LIKE ?1`, `command NOT LIKE 'ctx%'` and
`cwd LIKE ?1`.  SQLite's default `LIKE` is case-insensitive for the ASCII
letters A-Z, `%` matches any (possibly empty) sequence and `_` matches
exactly one character; other characters compare after ASCII case folding. -/

/-- ASCII case folding as SQLite's default `LIKE` applies it: A-Z map to a-z,
every other character is left alone. -/
def foldChar (c : Char) : Char :=
  if 'A' ≤ c ∧ c ≤ 'Z' then Char.ofNat (c.toNat + 32) else c

/-- Every suffix of a character list, longest first (the empty suffix
last). -/
def suffixes : List Char → List (List Char)
  | [] => [[]]
  | c :: s => (c :: s) :: suffixes s

/-- The `LIKE` pattern matcher on character lists: first argument the
pattern, second the subject.  `%` consumes any prefix of the subject, i.e.
the rest of the pattern must match some suffix. -/
def likeMatch : List Char → List Char → Bool
  | [], s => s.isEmpty
  | '%' :: ps, s => (suffixes s).any fun t => likeMatch ps t
  | '_' :: ps, s =>
    match s with
    | [] => false
    | _ :: s' => likeMatch ps s'
  | p :: ps, s =>
    match s with
    | [] => false
    | c :: s' => (foldChar p = foldChar c) && likeMatch ps s'

/-- `subject LIKE pat` for whole strings. -/
def sqlLike (pat subject : String) : Bool :=
  likeMatch pat.toList subject.toList

/-! ## Self-invocation test of the windowed digests

`main.rs` (Today and Weekly loops): `let trimmed = command.trim_start();
if trimmed == "ctx" || trimmed.starts_with("ctx ") { continue; }`. -/

/-- `startsWithList p s` is `s.starts_with(p)` on character lists. -/
def startsWithList : List Char → List Char → Bool
  | [], _ => true
  | _ :: _, [] => false
  | p :: ps, c :: cs => (p = c) && startsWithList ps cs

/-- The digest loops' skip test: left-trimmed command text equal to `"ctx"`
or starting with `"ctx "`. -/
def selfSkip (command : String) : Bool :=
  let trimmed := command.toList.dropWhile Char.isWhitespace
  (trimmed = "ctx".toList) || startsWithList "ctx ".toList trimmed

/-! ## The persisted row (`db.rs`)

The `command_logs` table stores the timestamp as `TEXT` (the RFC-3339
rendering produced at insert time), so a stored row carries a string
timestamp that every report has to parse back. -/

/-- One row of the `command_logs` table. -/
structure CommandLog where
  id : String
  timestamp : String
  cwd : String
  command : String
  exit_code : Int
  duration_secs : Rat
deriving DecidableEq

/-! ## RFC-3339 timestamp parsing

Reports recover a `DateTime` from the stored text with
`DateTime::parse_from_rfc3339(..).unwrap()`.  The parser below accepts the
RFC-3339 shape `YYYY-MM-DDTHH:MM:SS[.frac](Z|±HH:MM)` (separator `T` or
`t`), validates the calendar fields, and yields the instant as rational
Unix-epoch seconds.  Leap-second inputs (second field 60) are outside the
model; the stored timestamps the program itself writes never contain one. -/

/-- The value of a decimal digit character. -/
def digitVal (c : Char) : Option Nat :=
  if '0' ≤ c ∧ c ≤ '9' then some (c.toNat - '0'.toNat) else none

/-- Two digit characters as a number below 100. -/
def twoDigits (a b : Char) : Option Nat := do
  let va ← digitVal a
  let vb ← digitVal b
  pure (10 * va + vb)

/-- Four digit characters as a number below 10000. -/
def fourDigits (a b c d : Char) : Option Nat := do
  let hi ← twoDigits a b
  let lo ← twoDigits c d
  pure (100 * hi + lo)

/-- Gregorian leap-year rule. -/
def isLeapYear (y : Nat) : Bool :=
  (y % 4 = 0 && y % 100 ≠ 0) || y % 400 = 0

/-- Days in a month of the proleptic Gregorian calendar. -/
def daysInMonth (y m : Nat) : Nat :=
  if m = 2 then (if isLeapYear y then 29 else 28)
  else if m = 4 ∨ m = 6 ∨ m = 9 ∨ m = 11 then 30
  else 31

/-- Days from 1970-01-01 to year `y`, month `m`, day `d` (civil-from-days
construction over 400-year eras). -/
def daysFromCivil (y : Int) (m d : Nat) : Int :=
  let yAdj : Int := if m ≤ 2 then y - 1 else y
  let era : Int := (if 0 ≤ yAdj then yAdj else yAdj - 399) / 400
  let yoe : Nat := (yAdj - era * 400).toNat
  let mp : Nat := (m + 9) % 12
  let doy : Nat := (153 * mp + 2) / 5 + d - 1
  let doe : Nat := yoe * 365 + yoe / 4 - yoe / 100 + doy
  era * 146097 + (doe : Int) - 719468

/-- Leading run of digit characters and the remainder of the input. -/
def takeDigits : List Char → List Nat × List Char
  | [] => ([], [])
  | c :: cs =>
    match digitVal c with
    | some v => let (ds, rest) := takeDigits cs; (v :: ds, rest)
    | none => ([], c :: cs)

/-- Value of a fractional-second digit string (digits after the point). -/
def fracValue (ds : List Nat) : Rat :=
  ds.foldr (fun d acc => ((d : Rat) + acc) / 10) 0

/-- Optional fractional-second part: a point must be followed by at least
one digit; no point means zero. -/
def parseFrac : List Char → Option (Rat × List Char)
  | '.' :: cs =>
    match takeDigits cs with
    | ([], _) => none
    | (ds, rest) => some (fracValue ds, rest)
  | cs => some (0, cs)

/-- The trailing UTC offset, in seconds, consuming the whole remainder:
`Z`/`z`, or a sign and `HH:MM`. -/
def parseOffset : List Char → Option Int
  | ['Z'] => some 0
  | ['z'] => some 0
  | [sgn, o1, o2, ':', p1, p2] => do
    let oh ← twoDigits o1 o2
    let om ← twoDigits p1 p2
    if (sgn = '+' ∨ sgn = '-') ∧ oh ≤ 23 ∧ om ≤ 59 then
      let total : Int := oh * 3600 + om * 60
      pure (if sgn = '-' then -total else total)
    else none
  | _ => none

/-- `DateTime::parse_from_rfc3339` as the reports use it: `none` models the
parse error the code unwraps, `some t` the parsed instant as rational
Unix-epoch seconds (timezone conversion to `Local` does not move the
instant, so the epoch value is all the report logic consumes). -/
def parseRfc3339 (str : String) : Option Rat :=
  match str.toList with
  | y1 :: y2 :: y3 :: y4 :: da :: m1 :: m2 :: db :: d1 :: d2 ::
      t :: h1 :: h2 :: ca :: n1 :: n2 :: cb :: s1 :: s2 :: rest => do
    let y ← fourDigits y1 y2 y3 y4
    let mo ← twoDigits m1 m2
    let d ← twoDigits d1 d2
    let h ← twoDigits h1 h2
    let mi ← twoDigits n1 n2
    let s ← twoDigits s1 s2
    let (frac, rest') ← parseFrac rest
    let off ← parseOffset rest'
    if da = '-' ∧ db = '-' ∧ (t = 'T' ∨ t = 't') ∧ ca = ':' ∧ cb = ':' ∧
        1 ≤ mo ∧ mo ≤ 12 ∧ 1 ≤ d ∧ d ≤ daysInMonth y mo ∧
        h ≤ 23 ∧ mi ≤ 59 ∧ s ≤ 59 then
      pure ((daysFromCivil y mo d * 86400 + h * 3600 + mi * 60 + s - off : Int)
        + frac)
    else none
  | _ => none

/-! ## `db.rs`: schema and insert

`insert_command_log` executes a single `INSERT`; it fails when the `id`
collides with the table's primary key or the backing medium cannot be
written (`mediumWritable = false` models the latter). -/

/-- `insert_command_log` over a store modelled as the list of rows in
insertion order. -/
def insert_command_log (store : List CommandLog) (log : CommandLog)
    (mediumWritable : Bool) : Except String (List CommandLog) :=
  if mediumWritable = false then Except.error "StorageWriteError"
  else if store.any (fun e => e.id = log.id) then
    Except.error "UNIQUE constraint failed: command_logs.id"
  else Except.ok (store ++ [log])

/-- Whether an `Except` computation succeeded. -/
def exceptIsOk {ε α : Type} : Except ε α → Bool
  | Except.ok _ => true
  | Except.error _ => false

/-! ## `Commands::LogCmd` (`main.rs` lines 83-93)

The subcommand builds a row and runs
`db::insert_command_log(&conn, &log).expect("Failed to insert log")`: on an
insert error the process panics, which terminates it abnormally with the
Rust panic exit status 101; on success it falls through to a normal exit 0. -/

/-- How the `log-cmd` process run ends. -/
inductive ProcessOutcome
  | success
  | panicked (msg : String)
deriving DecidableEq

/-- The exit status the parent shell observes: 0 for a normal end, 101 for
a Rust panic. -/
def processExitCode : ProcessOutcome → Nat
  | ProcessOutcome.success => 0
  | ProcessOutcome.panicked _ => 101

/-- `Commands::LogCmd`: insert the row, panicking on an insert error; the
resulting store is unchanged when the insert failed. -/
def runLogCmd (store : List CommandLog) (log : CommandLog)
    (mediumWritable : Bool) : ProcessOutcome × List CommandLog :=
  match insert_command_log store log mediumWritable with
  | Except.ok store' => (ProcessOutcome.success, store')
  | Except.error _ => (ProcessOutcome.panicked "Failed to insert log", store)

/-! ## `Commands::Log` (`main.rs` lines 94-127)

The listing maps every scanned row through
`DateTime::parse_from_rfc3339(..).unwrap()`; the first row whose timestamp
does not parse panics the whole subcommand, so the run is an `Except`: an
error aborts everything, success carries every row with its parsed
instant. -/

/-- The row loop of `Commands::Log` over the scanned rows. -/
def logReportRun : List CommandLog → Except String (List (Rat × CommandLog))
  | [] => Except.ok []
  | e :: es =>
    match parseRfc3339 e.timestamp with
    | none => Except.error "panic: invalid rfc3339 timestamp"
    | some ts =>
      match logReportRun es with
      | Except.error msg => Except.error msg
      | Except.ok rest => Except.ok ((ts, e) :: rest)

/-! ## `Commands::Today` / `Commands::Weekly` summarized digest
(`main.rs` lines 128-197 and 216-285)

Both loops are identical up to the window length: skip self-invocations,
parse the timestamp (`unwrap` — a parse failure panics the digest), then
accumulate totals, per-folder time, per-command counts and the first/last
parsed timestamp.  The hash maps are modelled as association lists keyed in
first-encounter order; the digest consumers only fold over their entries. -/

/-- The digest accumulator state. -/
structure Digest where
  total_commands : Nat
  total_time : Rat
  folder_time : List (String × Rat)
  command_count : List (String × Nat)
  first_timestamp : Option Rat
  last_timestamp : Option Rat
deriving DecidableEq

/-- `*folder_time.entry(k).or_insert(0.0) += v` on an association list. -/
def addTime : List (String × Rat) → String → Rat → List (String × Rat)
  | [], k, v => [(k, v)]
  | (k', v') :: rest, k, v =>
    if k' = k then (k', v' + v) :: rest else (k', v') :: addTime rest k v

/-- `*command_count.entry(k).or_insert(0) += 1` on an association list. -/
def addCount : List (String × Nat) → String → List (String × Nat)
  | [], k => [(k, 1)]
  | (k', n) :: rest, k =>
    if k' = k then (k', n + 1) :: rest else (k', n) :: addCount rest k

/-- One iteration of the digest loop: `continue` on a self-invocation,
panic on an unparsable timestamp, otherwise accumulate. -/
def digestStep (acc : Digest) (r : CommandLog) : Except String Digest :=
  if selfSkip r.command then Except.ok acc
  else
    match parseRfc3339 r.timestamp with
    | none => Except.error "panic: invalid rfc3339 timestamp"
    | some ts => Except.ok
        { total_commands := acc.total_commands + 1
          total_time := acc.total_time + r.duration_secs
          folder_time := addTime acc.folder_time r.cwd r.duration_secs
          command_count := addCount acc.command_count r.command
          first_timestamp :=
            match acc.first_timestamp with
            | none => some ts
            | some f => some f
          last_timestamp := some ts }

/-- The digest loop over the scanned rows. -/
def digestRun : List CommandLog → Digest → Except String Digest
  | [], acc => Except.ok acc
  | r :: rs, acc =>
    match digestStep acc r with
    | Except.error msg => Except.error msg
    | Except.ok acc' => digestRun rs acc'

/-- The accumulator before the first row. -/
def digestInit : Digest := ⟨0, 0, [], [], none, none⟩

/-- The whole digest loop from an empty accumulator. -/
def digestOfRows (rows : List CommandLog) : Except String Digest :=
  digestRun rows digestInit

/-- `chrono::Duration::num_seconds`: whole seconds, truncated toward
zero. -/
def truncSec (q : Rat) : Int :=
  if 0 ≤ q then ⌊q⌋ else -⌊-q⌋

/-- The uptime line of the digest: `last - first` whole seconds when both a
first and a last timestamp were seen, `none` for the `N/A` rendering. -/
def uptimeOut (d : Digest) : Option Int :=
  match d.first_timestamp, d.last_timestamp with
  | some f, some l => some (truncSec (l - f))
  | _, _ => none

/-- The uptime the digest of given rows reports: `none` when the digest
itself panicked, otherwise the (optional) uptime value. -/
def digestUptime (rows : List CommandLog) : Option (Option Int) :=
  match digestOfRows rows with
  | Except.ok d => some (uptimeOut d)
  | Except.error _ => none

/-! ## `Commands::Summary` (`main.rs` lines 304-315)

`SELECT COUNT(*), SUM(duration_secs) FROM command_logs WHERE cwd LIKE ?1`
with the pattern `%folder%`.  An aggregate query without `GROUP BY` always
yields exactly one row; over no matching rows `COUNT(*)` is 0 and `SUM` is
NULL, which `row.get(1).unwrap_or(0.0)` turns into `0.0`. -/

/-- The one aggregate row of the summary query: matched-row count and
summed duration (empty sum is the NULL-`unwrap_or` zero). -/
def summaryAggRow (store : List CommandLog) (folder : String) : Int × Rat :=
  let ms := store.filter (fun e => sqlLike ("%" ++ folder ++ "%") e.cwd)
  ((ms.length : Int), (ms.map (fun e => e.duration_secs)).sum)

/-- The rows the summary query returns: always exactly one. -/
def summaryRows (store : List CommandLog) (folder : String) :
    List (Int × Rat) :=
  [summaryAggRow store folder]

/-- What the subcommand reports. -/
inductive SummaryOutcome
  | summary (count : Int) (total_time : Rat)
  | noData
deriving DecidableEq

/-- `Commands::Summary`: `if let Some(row) = rows.next()` print the
count/total line, else print "No data found". -/
def summaryCmd (store : List CommandLog) (folder : String) : SummaryOutcome :=
  match summaryRows store folder with
  | row :: _ => SummaryOutcome.summary row.1 row.2
  | [] => SummaryOutcome.noData

/-! ## Self-exclusion filter of `Top`, `Projects` and `Stats`
(`main.rs` lines 329-379)

All three queries carry `WHERE command NOT LIKE 'ctx%'`: the row is kept
exactly when its command text does not match the `LIKE` pattern `ctx%`. -/

/-- The `command NOT LIKE 'ctx%'` row filter. -/
def reportFilterSQL (command : String) : Bool :=
  !(sqlLike "ctx%" command)

/-- `Commands::Stats`: `COUNT(*), SUM, MIN, MAX, AVG` of `duration_secs`
over the filtered table; over no rows the four duration aggregates are NULL
and `unwrap_or(0.0)` renders them as zero. -/
def statsQuery (store : List CommandLog) : Int × Rat × Rat × Rat × Rat :=
  let ms := store.filter (fun e => reportFilterSQL e.command)
  match ms.map (fun e => e.duration_secs) with
  | [] => ((ms.length : Int), 0, 0, 0, 0)
  | d :: ds =>
    let total := (d :: ds).sum
    ((ms.length : Int), total, ds.foldl min d, ds.foldl max d,
      total / (ms.length : Rat))

/-- Byte-order (SQLite BINARY collation) comparison of two strings as
character lists; UTF-8 byte order agrees with code-point order. -/
def lexLe : List Char → List Char → Bool
  | [], _ => true
  | _ :: _, [] => false
  | a :: as, b :: bs =>
    if a.toNat < b.toNat then true
    else if b.toNat < a.toNat then false
    else lexLe as bs

/-- `ORDER BY timestamp ASC` row order. -/
def tsLe (a b : CommandLog) : Prop :=
  lexLe a.timestamp.toList b.timestamp.toList = true

instance : DecidableRel tsLe := fun _a _b =>
  inferInstanceAs (Decidable (_ = true))

/-- Count-descending order on grouped rows (`ORDER BY cnt DESC`). -/
def cntGe (a b : String × Nat) : Prop := b.2 ≤ a.2

instance : DecidableRel cntGe := fun _a _b =>
  inferInstanceAs (Decidable (_ ≤ _))

/-- `Commands::Top` (`main.rs` lines 329-339): group the filtered rows by
exact command text, count each group, order by count descending and keep
the first `n`.  Groups are formed in first-encounter order; SQLite leaves
the order of equal-count groups unspecified and the sort here is one
consistent choice. -/
def topQuery (store : List CommandLog) (n : Nat) : List (String × Nat) :=
  let grouped := ((store.filter (fun e => reportFilterSQL e.command)).map
    (fun e => e.command)).foldl addCount []
  (List.insertionSort cntGe grouped).take n

/-- `*m.entry(k) += (1, v)` for the projects rollup accumulator. -/
def addPair : List (String × Nat × Rat) → String → Rat →
    List (String × Nat × Rat)
  | [], k, v => [(k, 1, v)]
  | (k', n, t) :: rest, k, v =>
    if k' = k then (k', n + 1, t + v) :: rest
    else (k', n, t) :: addPair rest k v

/-- Count-descending order on per-folder rollup rows. -/
def projGe (a b : String × Nat × Rat) : Prop := b.2.1 ≤ a.2.1

instance : DecidableRel projGe := fun _a _b =>
  inferInstanceAs (Decidable (_ ≤ _))

/-- `Commands::Projects` (`main.rs` lines 340-350): group the filtered rows
by working directory with per-group count and duration sum, ordered by
count descending. -/
def projectsQuery (store : List CommandLog) : List (String × Nat × Rat) :=
  let grouped := (store.filter (fun e => reportFilterSQL e.command)).foldl
    (fun m e => addPair m e.cwd e.duration_secs) []
  List.insertionSort projGe grouped

/-! ## `Commands::Search` (`main.rs` lines 351-362)

`WHERE command LIKE ?1 AND command NOT LIKE 'ctx%' ORDER BY timestamp ASC`
with the pattern `%pattern%`; no `LIMIT`. -/

/-- The search query over the store. -/
def searchQuery (store : List CommandLog) (pat : String) :
    List CommandLog :=
  List.insertionSort tsLe (store.filter
    (fun e => sqlLike ("%" ++ pat ++ "%") e.command &&
      !(sqlLike "ctx%" e.command)))

/-- Explicit reading of the `LIKE` pattern `ctx%`: the first three
characters exist and case-fold to `c`, `t`, `x`. -/
def ctxFoldTest : List Char → Bool
  | a :: b :: c :: _ =>
    (foldChar a = 'c') && (foldChar b = 't') && (foldChar c = 'x')
  | _ => false

/-- Case-sensitive literal containment of `needle` as a contiguous
subsequence of `hay`. -/
def containsSeq (needle : List Char) : List Char → Bool
  | [] => startsWithList needle []
  | c :: rest => startsWithList needle (c :: rest) || containsSeq needle rest

/-- Search as claim C3 words it (the claimed behaviour, for comparison with
`searchQuery`): case-sensitive literal substring match on the command text,
self-invocations excluded by the spec's trimmed-prefix rule, ascending
chronological order, no limit. -/
def searchClaimed (store : List CommandLog) (pat : String) :
    List CommandLog :=
  List.insertionSort tsLe (store.filter
    (fun e => containsSeq pat.toList e.command.toList &&
      !(selfSkip e.command)))

/-! ## The capture gate (`logger.rs` `log_command`)

A pure function of the invocation tokens, the stdout-TTY test, the
debounce state read from `~/.context/ctx_state` (absent or unreadable state
degrades to `("", 0)`), and the fractional Unix time `now`.  `now as u64`
truncates toward zero (saturating at 0 for negative input), modelled as
`⌊now⌋.toNat`. -/

/-- The two-line debounce state file. -/
structure DebounceState where
  last_cmd : String
  last_time : Nat
deriving DecidableEq

/-- How an invocation leaves the gate. -/
inductive GateDecision
  | rejectNotTty
  | rejectBlacklisted
  | rejectDuplicate
  | rejectDebounced
  | accept
deriving DecidableEq

/-- The fixed denylist of `logger.rs`. -/
def blacklist : List String := ["ls", "clear", "pwd", "history", "exit"]

/-- `now as u64`: truncation toward zero, saturating at 0 below zero. -/
def ratToU64Trunc (q : Rat) : Nat := ⌊q⌋.toNat

/-- The decision sequence of `log_command` up to and including the state
write: TTY check, blacklist check, duplicate suppression, debounce window;
on acceptance the state becomes the joined text and the truncated `now`. -/
def log_command (cmd : String) (cmdArgs : List String) (ttyStdout : Bool)
    (st : DebounceState) (now : Rat) : GateDecision × DebounceState :=
  if ttyStdout = false then (GateDecision.rejectNotTty, st)
  else if cmd ∈ blacklist then (GateDecision.rejectBlacklisted, st)
  else
    let full_command := String.intercalate " " (cmd :: cmdArgs)
    if full_command = st.last_cmd then (GateDecision.rejectDuplicate, st)
    else if now - (st.last_time : Rat) < 1/2 then
      (GateDecision.rejectDebounced, st)
    else (GateDecision.accept, ⟨full_command, ratToU64Trunc now⟩)

/-- The gate together with its store effect: only an accepted invocation
runs the wrapped command and appends the captured event (`newEvent` stands
for the event built from the execution's outcome). -/
def gateRun (cmd : String) (cmdArgs : List String) (ttyStdout : Bool)
    (st : DebounceState) (now : Rat) (store : List CommandLog)
    (newEvent : CommandLog) :
    GateDecision × DebounceState × List CommandLog :=
  match log_command cmd cmdArgs ttyStdout st now with
  | (GateDecision.accept, st') =>
    (GateDecision.accept, st', store ++ [newEvent])
  | (d, st') => (d, st', store)

/-! ## Concrete rows used by the witnesses and counterexamples -/

/-- An ordinary stored event. -/
def evHome : CommandLog :=
  ⟨"id-home", "2024-01-01T00:00:00+00:00", "/home/user", "cargo build", 0, 1⟩

/-- An event whose command runs the binary `ctxfoo` (no word boundary after
`ctx`). -/
def evCtxfoo : CommandLog :=
  ⟨"id-ctxfoo", "2024-01-01T00:00:01+00:00", "/home/user", "ctxfoo", 0, 1⟩

/-- A self-invocation typed with a leading space. -/
def evLeadCtx : CommandLog :=
  ⟨"id-leadctx", "2024-01-01T00:00:02+00:00", "/home/user", " ctx foo", 0, 2⟩

/-- An event whose command text contains `GIT`, upper-case. -/
def evGit : CommandLog :=
  ⟨"id-git", "2024-01-01T00:00:03+00:00", "/home/user", "GIT status", 0, 1⟩

/-- A stored row whose timestamp text is not RFC-3339. -/
def evBadTs : CommandLog :=
  ⟨"id-bad", "not-a-timestamp", "/home/user", "cargo test", 0, 1⟩

/-! ## Helper lemmas -/

theorem lexLe_total : ∀ x y : List Char, lexLe x y = true ∨ lexLe y x = true
  | [], _ => Or.inl rfl
  | _ :: _, [] => Or.inr rfl
  | a :: as, b :: bs => by
    by_cases hab : a.toNat < b.toNat
    · left
      simp [lexLe, hab]
    · by_cases hba : b.toNat < a.toNat
      · right
        simp [lexLe, hba]
      · rcases lexLe_total as bs with h | h
        · left
          simp [lexLe, hab, hba, h]
        · right
          simp [lexLe, hba, hab, h]

theorem lexLe_trans : ∀ x y z : List Char,
    lexLe x y = true → lexLe y z = true → lexLe x z = true
  | [], _, _, _, _ => rfl
  | _ :: _, [], _, hxy, _ => by simp [lexLe] at hxy
  | _ :: _, _ :: _, [], _, hyz => by simp [lexLe] at hyz
  | a :: as, b :: bs, c :: cs, hxy, hyz => by
    simp only [lexLe] at hxy hyz ⊢
    by_cases h1 : a.toNat < b.toNat
    · by_cases h2 : b.toNat < c.toNat
      · have : a.toNat < c.toNat := lt_trans h1 h2
        simp [this]
      · by_cases h2' : c.toNat < b.toNat
        · simp [h2, h2'] at hyz
        · have : a.toNat < c.toNat := by omega
          simp [this]
    · by_cases h1' : b.toNat < a.toNat
      · simp [h1, h1'] at hxy
      · have hablt : ¬a.toNat < b.toNat := h1
        by_cases h2 : b.toNat < c.toNat
        · have : a.toNat < c.toNat := by omega
          simp [this]
        · by_cases h2' : c.toNat < b.toNat
          · simp [h2, h2'] at hyz
          · have hac : ¬a.toNat < c.toNat := by omega
            have hca : ¬c.toNat < a.toNat := by omega
            simp [h1, h1'] at hxy
            simp [h2, h2'] at hyz
            simp [hac, hca, lexLe_trans as bs cs hxy hyz]

instance : IsTotal CommandLog tsLe :=
  ⟨fun a b => lexLe_total a.timestamp.toList b.timestamp.toList⟩

instance : IsTrans CommandLog tsLe :=
  ⟨fun _ _ _ h1 h2 => lexLe_trans _ _ _ h1 h2⟩

theorem nil_mem_suffixes : ∀ s : List Char, [] ∈ suffixes s
  | [] => by simp [suffixes]
  | c :: s => by simp [suffixes, nil_mem_suffixes s]

theorem suffixes_any_isEmpty :
    ∀ s : List Char, ((suffixes s).any fun t => t.isEmpty) = true
  | [] => rfl
  | c :: s => by simp [suffixes, nil_mem_suffixes s]

theorem likeMatch_pct_all (s : List Char) : likeMatch ['%'] s = true := by
  simp [likeMatch, nil_mem_suffixes s]

theorem likeMatch_ctx_eq :
    ∀ s : List Char, likeMatch ['c', 't', 'x', '%'] s = ctxFoldTest s
  | [] => by simp [likeMatch, ctxFoldTest]
  | [a] => by simp [likeMatch, ctxFoldTest]
  | [a, b] => by simp [likeMatch, ctxFoldTest]
  | a :: b :: c :: rest => by
    simp [likeMatch, ctxFoldTest, suffixes_any_isEmpty rest, Bool.and_assoc,
      show foldChar 'c' = 'c' from rfl, show foldChar 't' = 't' from rfl,
      show foldChar 'x' = 'x' from rfl, eq_comm]

/-! ## The claims -/

/-- C1: the summary subcommand's aggregate query always yields exactly one
row, so a folder matching no stored event is reported as the
`(0, 0.0)` summary, never as the "No data found" outcome — that branch is
unreachable.  Shown at the concrete failing input (a non-empty store, the
folder `/nonexistent` matching nothing) together with the unreachability of
the "no data" outcome for every store and folder. -/
theorem c1_summary_zero_rendered :
    summaryCmd [evHome] "/nonexistent" = SummaryOutcome.summary 0 0 ∧
    ∀ (store : List CommandLog) (folder : String),
      summaryCmd store folder ≠ SummaryOutcome.noData := by
  constructor
  · decide
  · intro store folder
    simp [summaryCmd, summaryRows]

/-- C2: an insert failure in the `log-cmd` subcommand is not degraded
silently — `expect` panics the process, leaving the store unchanged and
producing the non-zero panic exit status 101. -/
theorem c2_insert_failure_panics (store : List CommandLog) (log : CommandLog)
    (mediumWritable : Bool)
    (h : exceptIsOk (insert_command_log store log mediumWritable) = false) :
    (runLogCmd store log mediumWritable).1 =
      ProcessOutcome.panicked "Failed to insert log" ∧
    (runLogCmd store log mediumWritable).2 = store ∧
    processExitCode (runLogCmd store log mediumWritable).1 = 101 := by
  cases hins : insert_command_log store log mediumWritable with
  | ok s => simp [exceptIsOk, hins] at h
  | error e => simp [runLogCmd, hins, processExitCode]

/-- C2 witness: a concrete unwritable-medium insert ends in the panic exit
status 101. -/
theorem c2_insert_failure_panics_witness :
    processExitCode (runLogCmd [] evHome false).1 = 101 :=
  (c2_insert_failure_panics [] evHome false rfl).2.2

/-- C2 counterexample to the claim as stated: at a concrete input where the
insert fails, the exit status the parent shell observes is 101, not 0. -/
theorem c2_insert_failure_nonzero_cex :
    processExitCode (runLogCmd [] evHome false).1 = 101 ∧
    processExitCode (runLogCmd [] evHome false).1 ≠ 0 := by
  constructor
  · rfl
  · intro h
    simp [runLogCmd, insert_command_log, processExitCode] at h

/-- C3 counterexample to the claim as stated: with the single stored event
whose command text is `GIT status`, searching for `git` returns the event —
SQLite `LIKE` matching is ASCII case-insensitive — while the claimed
case-sensitive literal-substring search returns nothing. -/
theorem c3_search_case_insensitive_cex :
    searchQuery [evGit] "git" ≠ searchClaimed [evGit] "git" ∧
    searchQuery [evGit] "git" = [evGit] ∧
    searchClaimed [evGit] "git" = [] := by
  refine ⟨?_, ?_, ?_⟩ <;> decide

/-- C3 amended: the search subcommand returns exactly the stored events
whose command text matches the SQL `LIKE` pattern `%pattern%` (ASCII
case-insensitive, `%`/`_` in the pattern acting as wildcards) and does not
match `LIKE 'ctx%'`, as one sequence sorted ascending by timestamp with no
limit. -/
theorem c3_search_like_filter_sorted (store : List CommandLog)
    (pat : String) :
    List.Sorted tsLe (searchQuery store pat) ∧
    List.Perm (searchQuery store pat) (store.filter
      (fun e => sqlLike ("%" ++ pat ++ "%") e.command &&
        !(sqlLike "ctx%" e.command))) :=
  ⟨List.sorted_insertionSort tsLe _, List.perm_insertionSort tsLe _⟩

/-- C4 counterexample to the claim as stated: under the `NOT LIKE 'ctx%'`
filter of Top/Projects/Stats, the event `ctxfoo` (no word boundary) is
excluded although the claimed trim-based rule keeps it, and the event
` ctx foo` (leading whitespace) is included although the claimed rule
excludes it. -/
theorem c4_ctx_prefix_cex :
    statsQuery [evCtxfoo] = ((0 : Int), 0, 0, 0, 0) ∧
    topQuery [evCtxfoo] 10 = [] ∧
    selfSkip evCtxfoo.command = false ∧
    (statsQuery [evLeadCtx]).1 = 1 ∧
    selfSkip evLeadCtx.command = true := by
  refine ⟨?_, ?_, ?_, ?_, ?_⟩ <;> decide

/-- C4 amended: in Top, Projects and Stats an event is excluded exactly
when the first three characters of its (untrimmed) command text case-fold
to `ctx` — the `LIKE 'ctx%'` prefix test — not by the trimmed
word-boundary rule the digests use. -/
theorem c4_ctx_prefix_characterization :
    (∀ cmd : String, reportFilterSQL cmd = !(ctxFoldTest cmd.toList)) ∧
    (∀ store : List CommandLog, (statsQuery store).1 =
      ((store.filter fun e => !(ctxFoldTest e.command.toList)).length :
        Int)) := by
  have hchar : ∀ cmd : String,
      reportFilterSQL cmd = !(ctxFoldTest cmd.toList) := by
    intro cmd
    unfold reportFilterSQL sqlLike
    rw [show "ctx%".toList = ['c', 't', 'x', '%'] from rfl, likeMatch_ctx_eq]
  refine ⟨hchar, fun store => ?_⟩
  have hfil : store.filter (fun e => reportFilterSQL e.command) =
      store.filter (fun e => !(ctxFoldTest e.command.toList)) :=
    List.filter_congr fun a _ => hchar a.command
  simp only [statsQuery, hfil]
  cases h : (store.filter fun e => !(ctxFoldTest e.command.toList)).map
      (fun e => e.duration_secs) <;> simp [h]

/-- What the digest loop leaves in `first_timestamp` and `last_timestamp`:
starting from any accumulator, when every kept row's timestamp parses the
loop succeeds, `first_timestamp` keeps the accumulator's value or takes the
first kept row's instant, and `last_timestamp` takes the last kept row's
instant or keeps the accumulator's value. -/
theorem digestRun_first_last :
    ∀ (rows : List CommandLog) (acc : Digest),
    (∀ r ∈ rows, selfSkip r.command = false →
      (parseRfc3339 r.timestamp).isSome = true) →
    ∃ d, digestRun rows acc = Except.ok d ∧
      d.first_timestamp =
        (match acc.first_timestamp with
         | some f => some f
         | none => ((rows.filter fun r => !(selfSkip r.command)).head?.bind
             fun r => parseRfc3339 r.timestamp)) ∧
      d.last_timestamp =
        (match (rows.filter fun r => !(selfSkip r.command)).getLast? with
         | some r => parseRfc3339 r.timestamp
         | none => acc.last_timestamp)
  | [], acc, _ =>
    ⟨acc, rfl, by cases acc.first_timestamp <;> simp, by simp⟩
  | r :: rs, acc, h => by
    have htail : ∀ x ∈ rs, selfSkip x.command = false →
        (parseRfc3339 x.timestamp).isSome = true :=
      fun x hx => h x (List.mem_cons_of_mem _ hx)
    by_cases hskip : selfSkip r.command = true
    · obtain ⟨d, hd, hfirst, hlast⟩ := digestRun_first_last rs acc htail
      have step : digestStep acc r = Except.ok acc := by
        simp [digestStep, hskip]
      refine ⟨d, ?_, ?_, ?_⟩
      · simp [digestRun, step, hd]
      · simpa [List.filter_cons, hskip] using hfirst
      · simpa [List.filter_cons, hskip] using hlast
    · have hskip' : selfSkip r.command = false := by
        simpa using hskip
      have hr := h r (List.mem_cons_self r rs) hskip'
      cases hparse : parseRfc3339 r.timestamp with
      | none => rw [hparse] at hr; simp at hr
      | some t =>
        have step : digestStep acc r = Except.ok
            { total_commands := acc.total_commands + 1
              total_time := acc.total_time + r.duration_secs
              folder_time := addTime acc.folder_time r.cwd r.duration_secs
              command_count := addCount acc.command_count r.command
              first_timestamp :=
                match acc.first_timestamp with
                | none => some t
                | some f => some f
              last_timestamp := some t } := by
          simp [digestStep, hskip', hparse]
        obtain ⟨d, hd, hfirst, hlast⟩ := digestRun_first_last rs
          { total_commands := acc.total_commands + 1
            total_time := acc.total_time + r.duration_secs
            folder_time := addTime acc.folder_time r.cwd r.duration_secs
            command_count := addCount acc.command_count r.command
            first_timestamp :=
              match acc.first_timestamp with
              | none => some t
              | some f => some f
            last_timestamp := some t } htail
        simp only at hfirst hlast
        refine ⟨d, by simp [digestRun, step, hd], ?_, ?_⟩
        · cases hacc : acc.first_timestamp with
          | some f =>
            rw [hacc] at hfirst
            simpa [hacc] using hfirst
          | none =>
            rw [hacc] at hfirst
            simp only [hacc]
            simp [List.filter_cons, hskip', hparse, hfirst]
        · cases hfrs : (rs.filter fun x => !(selfSkip x.command)) with
          | nil =>
            rw [hfrs] at hlast
            simp only [List.getLast?_nil] at hlast
            have hfil2 : List.filter (fun x => !(selfSkip x.command))
                (r :: rs) = [r] := by
              simp [List.filter_cons, hskip', hfrs]
            rw [hfil2]
            simpa [hparse] using hlast
          | cons y ys =>
            rw [hfrs] at hlast
            have hfil2 : List.filter (fun x => !(selfSkip x.command))
                (r :: rs) = r :: y :: ys := by
              simp [List.filter_cons, hskip', hfrs]
            rw [hfil2, List.getLast?_cons_cons]
            exact hlast

/-- C5 counterexample to the claim as stated: the digest of exactly one
(kept, parsable) event reports an uptime of 0 seconds, not the N/A
outcome. -/
theorem c5_single_event_uptime_zero_cex :
    digestUptime [evHome] = some (some 0) ∧
    (some (some 0) : Option (Option Int)) ≠ some none := by
  constructor
  · obtain ⟨t, ht⟩ : ∃ t, parseRfc3339 evHome.timestamp = some t := ⟨_, rfl⟩
    simp [digestUptime, digestOfRows, digestRun, digestStep, digestInit, ht,
      uptimeOut, truncSec, show selfSkip evHome.command = false from rfl]
  · simp

/-- C5 amended: in the summarized digest, uptime is `last − first` in whole
seconds and is reported as N/A exactly when zero events were seen in the
window after self-exclusion; with exactly one kept event the digest reports
an uptime of 0 seconds, not N/A. -/
theorem c5_uptime_na_iff_no_events (rows : List CommandLog)
    (h : ∀ r ∈ rows, selfSkip r.command = false →
      (parseRfc3339 r.timestamp).isSome = true) :
    ∃ d, digestOfRows rows = Except.ok d ∧
      (uptimeOut d = none ↔
        (rows.filter fun r => !(selfSkip r.command)) = []) ∧
      ∀ r, (rows.filter fun r => !(selfSkip r.command)) = [r] →
        uptimeOut d = some 0 := by
  obtain ⟨d, hd, hfirst, hlast⟩ := digestRun_first_last rows digestInit h
  simp only [digestInit] at hfirst hlast
  refine ⟨d, hd, ?_, ?_⟩
  · cases hfil : (rows.filter fun r => !(selfSkip r.command)) with
    | nil =>
      rw [hfil] at hfirst hlast
      simp at hfirst hlast
      simp [uptimeOut, hfirst]
    | cons x xs =>
      rw [hfil] at hfirst hlast
      have hxmem : x ∈ rows.filter fun r => !(selfSkip r.command) := by
        rw [hfil]; exact List.mem_cons_self x xs
      have hxrows : x ∈ rows := List.mem_of_mem_filter hxmem
      have hxkeep : selfSkip x.command = false := by
        have := List.of_mem_filter hxmem
        simpa using this
      have hxparse := h x hxrows hxkeep
      obtain ⟨tx, htx⟩ := Option.isSome_iff_exists.mp hxparse
      have hy : ∃ y, (x :: xs).getLast? = some y ∧
          y ∈ rows.filter fun r => !(selfSkip r.command) := by
        cases hg : (x :: xs).getLast? with
        | none => simp at hg
        | some y =>
          refine ⟨y, rfl, ?_⟩
          rw [hfil]
          obtain ⟨hne, hy⟩ := List.mem_getLast?_eq_getLast
            (Option.mem_def.mpr hg)
          exact hy ▸ List.getLast_mem hne
      obtain ⟨y, hgy, hymem⟩ := hy
      have hyrows : y ∈ rows := List.mem_of_mem_filter hymem
      have hykeep : selfSkip y.command = false := by
        have := List.of_mem_filter hymem
        simpa using this
      obtain ⟨ty, hty⟩ := Option.isSome_iff_exists.mp (h y hyrows hykeep)
      rw [hgy] at hlast
      simp only [List.head?_cons, Option.some_bind] at hfirst
      rw [htx] at hfirst
      simp only [hty] at hlast
      simp [uptimeOut, hfirst, hlast]
  · intro r hfil
    rw [hfil] at hfirst hlast
    have hrmem : r ∈ rows.filter fun x => !(selfSkip x.command) := by
      rw [hfil]; exact List.mem_cons_self r []
    have hrrows : r ∈ rows := List.mem_of_mem_filter hrmem
    have hrkeep : selfSkip r.command = false := by
      have := List.of_mem_filter hrmem
      simpa using this
    obtain ⟨t, ht⟩ := Option.isSome_iff_exists.mp (h r hrrows hrkeep)
    simp only [List.head?_cons, List.getLast?_singleton, Option.some_bind]
      at hfirst hlast
    rw [ht] at hfirst hlast
    simp [uptimeOut, hfirst, hlast, truncSec]

/-- C5 witness: the amended statement applied to the concrete
single-event store. -/
theorem c5_uptime_na_iff_no_events_witness :
    ∃ d, digestOfRows [evHome] = Except.ok d ∧
      (uptimeOut d = none ↔
        ([evHome].filter fun r => !(selfSkip r.command)) = []) ∧
      ∀ r, ([evHome].filter fun r => !(selfSkip r.command)) = [r] →
        uptimeOut d = some 0 :=
  c5_uptime_na_iff_no_events [evHome] (by
    intro r hr _
    simp only [List.mem_singleton] at hr
    subst hr
    rfl)

theorem logReportRun_error_of_bad :
    ∀ rows : List CommandLog,
      (∃ r ∈ rows, parseRfc3339 r.timestamp = none) →
      exceptIsOk (logReportRun rows) = false
  | [], h => by simp at h
  | e :: es, h => by
    rcases h with ⟨r, hmem, hbad⟩
    rcases List.mem_cons.mp hmem with rfl | hmem'
    · simp [logReportRun, hbad, exceptIsOk]
    · cases hp : parseRfc3339 e.timestamp with
      | none => simp [logReportRun, hp, exceptIsOk]
      | some t =>
        have ih := logReportRun_error_of_bad es ⟨r, hmem', hbad⟩
        cases hrec : logReportRun es with
        | error m => simp [logReportRun, hp, hrec, exceptIsOk]
        | ok l => rw [hrec] at ih; simp [exceptIsOk] at ih

theorem digestRun_error_of_bad :
    ∀ (rows : List CommandLog) (acc : Digest),
      (∃ r ∈ rows, selfSkip r.command = false ∧
        parseRfc3339 r.timestamp = none) →
      exceptIsOk (digestRun rows acc) = false
  | [], _, h => by simp at h
  | r :: rs, acc, h => by
    rcases h with ⟨x, hmem, hkeep, hbad⟩
    rcases List.mem_cons.mp hmem with rfl | hmem'
    · simp [digestRun, digestStep, hkeep, hbad, exceptIsOk]
    · cases hstep : digestStep acc r with
      | error m => simp [digestRun, hstep, exceptIsOk]
      | ok acc' =>
        have ih := digestRun_error_of_bad rs acc' ⟨x, hmem', hkeep, hbad⟩
        simpa [digestRun, hstep] using ih

/-- C6 counterexample to the claim as stated: with one well-formed and one
malformed stored row, the Log report aborts entirely (the `unwrap` panic)
instead of dropping the malformed row and producing the rest. -/
theorem c6_malformed_row_aborts_cex :
    logReportRun [evHome, evBadTs] =
      Except.error "panic: invalid rfc3339 timestamp" ∧
    (parseRfc3339 evHome.timestamp).isSome = true ∧
    parseRfc3339 evBadTs.timestamp = none := by
  exact ⟨rfl, rfl, rfl⟩

/-- C6 amended: a stored event whose timestamp is not parsable RFC-3339
aborts the whole report — the Log listing errors whenever any scanned row
is malformed, and the windowed digest errors whenever any kept
(non-self-invocation) row is malformed; the row is not skipped. -/
theorem c6_malformed_row_aborts_report :
    (∀ rows : List CommandLog,
      (∃ r ∈ rows, parseRfc3339 r.timestamp = none) →
      exceptIsOk (logReportRun rows) = false) ∧
    (∀ rows : List CommandLog,
      (∃ r ∈ rows, selfSkip r.command = false ∧
        parseRfc3339 r.timestamp = none) →
      exceptIsOk (digestOfRows rows) = false) :=
  ⟨logReportRun_error_of_bad,
   fun rows h => digestRun_error_of_bad rows digestInit h⟩

/-- C6 witness: both apply at the concrete store holding only the malformed
row. -/
theorem c6_malformed_row_aborts_witness :
    exceptIsOk (logReportRun [evBadTs]) = false ∧
    exceptIsOk (digestOfRows [evBadTs]) = false :=
  ⟨c6_malformed_row_aborts_report.1 [evBadTs]
     ⟨evBadTs, List.mem_singleton.mpr rfl, rfl⟩,
   c6_malformed_row_aborts_report.2 [evBadTs]
     ⟨evBadTs, List.mem_singleton.mpr rfl, rfl, rfl⟩⟩

/-- C7: when the joined command text equals the stored `last_command_text`
the invocation is never accepted and the debounce state is left unchanged,
whatever the elapsed time; when it actually reaches the duplicate check
(TTY, not blacklisted) the rejection is the duplicate rejection itself,
showing the check fires before and independently of the debounce window. -/
theorem c7_duplicate_rejected_any_elapsed (cmd : String)
    (cmdArgs : List String) (ttyStdout : Bool) (st : DebounceState)
    (now : Rat)
    (h : String.intercalate " " (cmd :: cmdArgs) = st.last_cmd) :
    (log_command cmd cmdArgs ttyStdout st now).1 ≠ GateDecision.accept ∧
    (log_command cmd cmdArgs ttyStdout st now).2 = st ∧
    (ttyStdout = true → cmd ∉ blacklist →
      (log_command cmd cmdArgs ttyStdout st now).1 =
        GateDecision.rejectDuplicate) := by
  cases ttyStdout with
  | false => simp [log_command]
  | true =>
    by_cases hb : cmd ∈ blacklist
    · simp [log_command, hb]
    · simp [log_command, hb, h]

/-- C7 witness: an immediate identical re-run (`git st` twice, any elapsed
time — here 1000 seconds) is rejected as a duplicate with the state kept. -/
theorem c7_duplicate_rejected_any_elapsed_witness :
    (log_command "git" ["st"] true ⟨"git st", 0⟩ 1000).1 ≠
      GateDecision.accept ∧
    (log_command "git" ["st"] true ⟨"git st", 0⟩ 1000).2 = ⟨"git st", 0⟩ ∧
    (true = true → "git" ∉ blacklist →
      (log_command "git" ["st"] true ⟨"git st", 0⟩ 1000).1 =
        GateDecision.rejectDuplicate) :=
  c7_duplicate_rejected_any_elapsed "git" ["st"] true ⟨"git st", 0⟩ 1000 rfl

/-- C8: for an interactive, non-blacklisted invocation whose text differs
from the stored one, elapsed time (as the code computes it,
`now − last_attempt_epoch_seconds`) under 0.5 seconds rejects without a
state update, and at least 0.5 seconds passes the debounce check and is
accepted. -/
theorem c8_debounce_window_boundary (cmd : String) (cmdArgs : List String)
    (st : DebounceState) (now : Rat)
    (h1 : cmd ∉ blacklist)
    (h2 : String.intercalate " " (cmd :: cmdArgs) ≠ st.last_cmd) :
    (now - (st.last_time : Rat) < 1/2 →
      log_command cmd cmdArgs true st now =
        (GateDecision.rejectDebounced, st)) ∧
    (1/2 ≤ now - (st.last_time : Rat) →
      (log_command cmd cmdArgs true st now).1 = GateDecision.accept) := by
  constructor
  · intro hlt
    have hlt' : now - (st.last_time : Rat) < 2⁻¹ := by
      rw [← one_div]; exact hlt
    simp [log_command, h1, h2, hlt']
  · intro hge
    have hge' : ¬now - (st.last_time : Rat) < 2⁻¹ := by
      rw [← one_div]; exact not_lt.mpr hge
    simp [log_command, h1, h2, hge']

/-- C8 witness: from state `("", 0)` the invocation `git` is rejected at
elapsed 1/4 s and accepted at elapsed 2 s. -/
theorem c8_debounce_window_boundary_witness :
    log_command "git" [] true ⟨"", 0⟩ (1/4) =
      (GateDecision.rejectDebounced, ⟨"", 0⟩) ∧
    (log_command "git" [] true ⟨"", 0⟩ 2).1 = GateDecision.accept :=
  ⟨(c8_debounce_window_boundary "git" [] ⟨"", 0⟩ (1/4) (by decide)
      (by decide)).1 (by norm_num),
   (c8_debounce_window_boundary "git" [] ⟨"", 0⟩ 2 (by decide)
      (by decide)).2 (by norm_num)⟩

/-- C9: an invocation whose first token is on the denylist is never
accepted, and both the debounce state and the event store are left exactly
as they were — no state write and no insert happen. -/
theorem c9_blacklist_no_mutation (cmd : String) (cmdArgs : List String)
    (ttyStdout : Bool) (st : DebounceState) (now : Rat)
    (store : List CommandLog) (newEvent : CommandLog)
    (h : cmd ∈ blacklist) :
    (gateRun cmd cmdArgs ttyStdout st now store newEvent).1 ≠
      GateDecision.accept ∧
    (gateRun cmd cmdArgs ttyStdout st now store newEvent).2.1 = st ∧
    (gateRun cmd cmdArgs ttyStdout st now store newEvent).2.2 = store := by
  cases ttyStdout with
  | false => simp [gateRun, log_command]
  | true => simp [gateRun, log_command, h]

/-- C9 witness: `ls` at a concrete state and store mutates neither. -/
theorem c9_blacklist_no_mutation_witness :
    (gateRun "ls" [] true ⟨"", 0⟩ 100 [evHome] evGit).1 ≠
      GateDecision.accept ∧
    (gateRun "ls" [] true ⟨"", 0⟩ 100 [evHome] evGit).2.1 = ⟨"", 0⟩ ∧
    (gateRun "ls" [] true ⟨"", 0⟩ 100 [evHome] evGit).2.2 = [evHome] :=
  c9_blacklist_no_mutation "ls" [] true ⟨"", 0⟩ 100 [evHome] evGit
    (by decide)

/-- An invocation that survives every check is accepted and writes the
joined text and the truncated epoch. -/
theorem log_command_accepts (cmd : String) (cmdArgs : List String)
    (st : DebounceState) (now : Rat) (hb : cmd ∉ blacklist)
    (hdup : String.intercalate " " (cmd :: cmdArgs) ≠ st.last_cmd)
    (hdeb : ¬(now - (st.last_time : Rat) < 1/2)) :
    log_command cmd cmdArgs true st now =
      (GateDecision.accept,
        ⟨String.intercalate " " (cmd :: cmdArgs), ratToU64Trunc now⟩) := by
  have hdeb' : ¬(now - (st.last_time : Rat) < 2⁻¹) := by
    rw [← one_div]; exact hdeb
  simp [log_command, hb, hdup, hdeb']

/-- C10: an accepted invocation stores `⌊now⌋` (the `as u64` truncation) as
the debounce epoch, so the elapsed value a later invocation at time `later`
compares against the window is `later − ⌊now⌋`: at least the true elapsed
time and strictly less than the true elapsed time plus one second.
Consequently two distinct invocations separated by less than 0.5 s can both
be accepted, as the concrete run in the second conjunct shows
(`a` at 10.9 s then `b` at 11.3 s, 0.4 s apart). -/
theorem c10_truncated_epoch_overestimate (cmd : String)
    (cmdArgs : List String) (st : DebounceState) (now later : Rat)
    (h0 : 0 ≤ now) :
    ((log_command cmd cmdArgs true st now).1 = GateDecision.accept →
      (((log_command cmd cmdArgs true st now).2.last_time : Rat) = ⌊now⌋ ∧
       later - now ≤
         later - ((log_command cmd cmdArgs true st now).2.last_time : Rat) ∧
       later - ((log_command cmd cmdArgs true st now).2.last_time : Rat) <
         (later - now) + 1)) ∧
    ((log_command "a" [] true ⟨"", 5⟩ (109/10)).1 = GateDecision.accept ∧
     (log_command "b" [] true
       (log_command "a" [] true ⟨"", 5⟩ (109/10)).2 (113/10)).1 =
         GateDecision.accept ∧
     (113/10 : Rat) - 109/10 < 1/2) := by
  have hfirst := log_command_accepts "a" [] ⟨"", 5⟩ (109/10)
    (by decide) (by decide)
    (by show ¬((109 : Rat)/10 - ((5 : Nat) : Rat) < 1/2); push_cast; norm_num)
  have hfl : (⌊(109 : Rat)/10⌋ : Int) = 10 := by norm_num
  have hst : (log_command "a" [] true ⟨"", 5⟩ (109/10)).2 =
      (⟨"a", 10⟩ : DebounceState) := by
    rw [hfirst]
    simp [ratToU64Trunc, hfl, show String.intercalate " " ["a"] = "a" from rfl]
  constructor
  · intro hacc
    have hkey : (log_command cmd cmdArgs true st now).2 =
        ⟨String.intercalate " " (cmd :: cmdArgs), ratToU64Trunc now⟩ := by
      by_cases hb : cmd ∈ blacklist
      · simp [log_command, hb] at hacc
      · by_cases hdup : String.intercalate " " (cmd :: cmdArgs) = st.last_cmd
        · simp [log_command, hb, hdup] at hacc
        · by_cases hdeb : now - (st.last_time : Rat) < 1/2
          · have hdeb' : now - (st.last_time : Rat) < 2⁻¹ := by
              rw [← one_div]; exact hdeb
            simp [log_command, hb, hdup, hdeb'] at hacc
          · rw [log_command_accepts cmd cmdArgs st now hb hdup hdeb]
    have hfloor : (0 : Int) ≤ ⌊now⌋ := Int.floor_nonneg.mpr h0
    have hcast : (((ratToU64Trunc now : Nat)) : Rat) = (⌊now⌋ : Rat) := by
      unfold ratToU64Trunc
      rw [← Int.cast_natCast, Int.toNat_of_nonneg hfloor]
    rw [hkey]
    simp only [hcast]
    have hle : ((⌊now⌋ : Int) : Rat) ≤ now := Int.floor_le now
    have hlt : now < ((⌊now⌋ : Int) : Rat) + 1 := Int.lt_floor_add_one now
    refine ⟨trivial, by linarith, by linarith⟩
  · refine ⟨by rw [hfirst], ?_, by norm_num⟩
    rw [hst]
    have hsecond := log_command_accepts "b" [] ⟨"a", 10⟩ (113/10)
      (by decide) (by decide)
      (by show ¬((113 : Rat)/10 - ((10 : Nat) : Rat) < 1/2); push_cast;
          norm_num)
    rw [hsecond]

/-- C10 witness: the overestimation bounds at the concrete accepted
invocation `x` at time 2, observed from time 3. -/
theorem c10_truncated_epoch_overestimate_witness :
    (((log_command "x" [] true ⟨"", 0⟩ (2 : Rat)).2.last_time : Nat) : Rat) =
      ⌊(2 : Rat)⌋ ∧
    (3 : Rat) - 2 ≤ (3 : Rat) -
      ((log_command "x" [] true ⟨"", 0⟩ (2 : Rat)).2.last_time : Rat) ∧
    (3 : Rat) - ((log_command "x" [] true ⟨"", 0⟩ (2 : Rat)).2.last_time :
      Rat) < ((3 : Rat) - 2) + 1 :=
  (c10_truncated_epoch_overestimate "x" [] ⟨"", 0⟩ 2 3 (by norm_num)).1
    (by rw [log_command_accepts "x" [] ⟨"", 0⟩ 2 (by decide) (by decide)
          (by show ¬((2 : Rat) - ((0 : Nat) : Rat) < 1/2); push_cast;
              norm_num)])

end Ctx
